import Mathlib

/-!
# mcp-go-client: stream framing, request ids and response correlation

A shallow embedding of `pkg/transport/sse.go`, `pkg/messages` and
`pkg/mcp/client.go`.

Conventions of the embedding

* A Go `string` is a Lean `String`; the regular expression works on its list of
  characters.  Every character the expression tells apart (`\n`, the class
  `\s`) is ASCII, so matching by character and matching by byte agree.
* A Go `map[K]V` is a function `K → Option V`.
* A value of type `interface{}` produced by `encoding/json` is a `JValue`; the
  nil interface is `JValue.null`.
* `atomic.Uint32` is a `Nat` kept below `2 ^ 32`.
* A run-time panic (failed type assertion, nil interface call, send on a closed
  channel) is an explicit outcome.
-/

namespace McpClient

/-! ## pkg/messages -/

/-- A decoded `interface{}`: what `encoding/json` stores in a
`map[string]interface{}`.  A number is kept as an integer; no code path of the
client inspects it. -/
inductive JValue where
  | null
  | bool (b : Bool)
  | num (n : Int)
  | str (s : String)
  | arr (items : List JValue)
  | obj (fields : List (String × JValue))

/-- messages.ResponseError -/
structure ResponseError where
  Code : Int
  Message : String
deriving DecidableEq, Repr

/-- messages.Response.  `Result` is a Go map, given by its list of fields; a
nil map is the empty list.  `Error` is a pointer, `none` when nil. -/
structure Response where
  JsonRPC : String
  Id : Int
  Result : List (String × JValue)
  Error : Option ResponseError

/-- messages.Request -/
structure Request where
  JsonRPC : String
  Id : Int
  Method : String
  Params : List (String × JValue)

/-! ## pkg/transport/sse.go: the framer -/

/-- The class `\s` of Go's regexp syntax, `[\t\n\f\r ]`. -/
def isSpace (c : Char) : Bool :=
  c == '\t' || c == '\n' || c == Char.ofNat 12 || c == '\r' || c == ' '

/-- The class `.` (flag `s` off): any character but a newline. -/
def isDot (c : Char) : Bool := c != '\n'

/-- The pieces the expression of `sseRegex` is a concatenation of. -/
inductive Atom where
  /-- a literal string -/
  | lit (s : List Char)
  /-- the greedy repetition `c*` of a character class `c` -/
  | star (cls : Char → Bool)
  /-- the capturing group `(c+)` around a greedy `c+` -/
  | group (cls : Char → Bool)

/-- The expression `event:\s*(.+)\ndata:\s*(.+)\n\n`. -/
def sseRegex : List Atom :=
  [Atom.lit "event:".toList, Atom.star isSpace, Atom.group isDot,
   Atom.lit "\ndata:".toList, Atom.star isSpace, Atom.group isDot,
   Atom.lit "\n\n".toList]

/-- Length of the longest prefix made of characters of the class. -/
def spanLen (cls : Char → Bool) : List Char → Nat
  | [] => 0
  | c :: cs => if cls c then spanLen cls cs + 1 else 0

/-- Greedy backtracking over a repetition count: `f n`, then `f (n-1)`, down to
`f 0`; the first success is the result. -/
def tryDown {α : Type} (f : Nat → Option α) : Nat → Option α
  | 0 => f 0
  | n + 1 =>
    match f (n + 1) with
    | some r => some r
    | none => tryDown f n

/-- Adds `k` consumed characters, and a capture if there is one, to the result
of matching the rest of the expression. -/
def extend (k : Nat) (cap : Option (List Char)) :
    Option (Nat × List (List Char)) → Option (Nat × List (List Char))
  | none => none
  | some (n, caps) =>
    some (k + n, match cap with
                 | none => caps
                 | some c => c :: caps)

/-- Anchored leftmost-first match of a concatenation of atoms at the start of
the input: the number of characters matched and the captured groups. -/
def matchHere : List Atom → List Char → Option (Nat × List (List Char))
  | [], _ => some (0, [])
  | Atom.lit s :: rest, inp =>
    if s.isPrefixOf inp then extend s.length none (matchHere rest (inp.drop s.length))
    else none
  | Atom.star cls :: rest, inp =>
    tryDown (fun k => extend k none (matchHere rest (inp.drop k))) (spanLen cls inp)
  | Atom.group cls :: rest, inp =>
    match spanLen cls inp with
    | 0 => none
    | m + 1 =>
      tryDown (fun k => extend (k + 1) (some (inp.take (k + 1)))
        (matchHere rest (inp.drop (k + 1)))) m

/-- Regexp.FindStringSubmatch: the leftmost match and its groups, the full
match first; the empty list (Go's nil slice) when nothing matches. -/
def FindStringSubmatch (re : List Atom) : List Char → List String
  | [] =>
    match matchHere re [] with
    | some (n, caps) => String.mk ([].take n) :: caps.map String.mk
    | none => []
  | c :: cs =>
    match matchHere re (c :: cs) with
    | some (n, caps) => String.mk ((c :: cs).take n) :: caps.map String.mk
    | none => FindStringSubmatch re cs

/-- transport.SSEMessage -/
structure SSEMessage where
  Event : String
  Data : String
deriving DecidableEq, Repr

/-- transport.extractSSEEvent -/
def extractSSEEvent (input : String) : Except String SSEMessage :=
  let ms := FindStringSubmatch sseRegex input.toList
  if ms.length ≠ 3 then Except.error "invalid SSE message format"
  else Except.ok { Event := ms.getD 1 "", Data := ms.getD 2 "" }

/-! ## pkg/transport/sse.go: the receive loop of `SSETransport.Start` -/

/-- transport.SSETransport.  A value of the func type of `MessageCallback` acts on
the state of whoever registered it; `σ` is the type of that state, and `none`
is the nil func. -/
structure SSETransport (σ : Type) where
  Url : String
  Headers : List (String × String)
  Endpoint : String
  MessageCallback : Option (Response → σ → σ)

/-- transport.NewSSETransport: `Endpoint` is empty and `MessageCallback` is nil. -/
def NewSSETransport {σ : Type} (url : String) (headers : List (String × String)) :
    SSETransport σ :=
  { Url := url, Headers := headers, Endpoint := "", MessageCallback := none }

/-- SSETransport.OnMessage -/
def SSETransport.OnMessage {σ : Type} (t : SSETransport σ) (callback : Response → σ → σ) :
    SSETransport σ :=
  { t with MessageCallback := some callback }

/-- What one iteration of the receive loop does to the outside: an assignment to
`t.Endpoint`, or a call `t.MessageCallback(msg)`. -/
inductive StreamEvent where
  | endpoint (data : String)
  | message (msg : Response)

/-- The error a call of `resp.Body.Read` returns with its bytes. -/
inductive ReadError where
  /-- the error `io.EOF` -/
  | EOF
  /-- any other error -/
  | other
deriving DecidableEq, Repr

/-- Where the goroutine of the receive loop stands: still in the loop, or out
of it after `io.EOF`, after another read error, after an error of
`extractSSEEvent`, after an error of `json.Unmarshal`, or dead in a panic on
the call of a nil `MessageCallback`. -/
inductive LoopExit where
  | running
  | eof
  | readError
  | extractError
  | unmarshalError
  | nilCallback
deriving DecidableEq, Repr

/-- What happens next around the receive loop: a call of `resp.Body.Read`
returns `data` (the text `string(respBuf[:n])`) and `err`, or another goroutine
calls `t.OnMessage(callback)`, as `Client.Connect` does at line 53 once `Start`
has returned. -/
inductive Step (σ : Type) where
  | read (data : String) (err : Option ReadError)
  | register (callback : Response → σ → σ)

/-- The transport, the state the callback acts on, the trace of the loop so far
and the standing of its goroutine. -/
structure LoopState (σ : Type) where
  t : SSETransport σ
  state : σ
  events : List StreamEvent
  exit : LoopExit

/-- One iteration of the loop in `SSETransport.Start`, lines 53-82, on the result
of its read; `unmarshal` is `json.Unmarshal` into a `messages.Response`
(`none`: it returned an error).  A read that returns an error leaves the loop
before its bytes are looked at.  A goroutine that has left the loop reads no
more. -/
def loopStep {σ : Type} (unmarshal : String → Option Response) (s : LoopState σ) :
    Step σ → LoopState σ
  | Step.register callback => { s with t := s.t.OnMessage callback }
  | Step.read data err =>
    match s.exit with
    | LoopExit.running =>
      match err with
      | some ReadError.EOF => { s with exit := LoopExit.eof }
      | some ReadError.other => { s with exit := LoopExit.readError }
      | none =>
        match extractSSEEvent data with
        | Except.error _ => { s with exit := LoopExit.extractError }
        | Except.ok extractedMessage =>
          let s1 : LoopState σ :=
            if extractedMessage.Event = "endpoint" then
              { s with
                t := { s.t with Endpoint := extractedMessage.Data },
                events := s.events ++ [StreamEvent.endpoint extractedMessage.Data] }
            else s
          if extractedMessage.Event = "message" then
            match unmarshal extractedMessage.Data with
            | none => { s1 with exit := LoopExit.unmarshalError }
            | some msg =>
              match s1.t.MessageCallback with
              | none => { s1 with exit := LoopExit.nilCallback }
              | some callback =>
                { s1 with
                  state := callback msg s1.state,
                  events := s1.events ++ [StreamEvent.message msg] }
          else s1
    | _ => s

/-- The goroutine started by `SSETransport.Start`, lines 50-84, run on a
schedule of reads and registrations, from the transport `t` and the state `s0`
of the owner of the callback. -/
def receiveLoop {σ : Type} (unmarshal : String → Option Response) (t : SSETransport σ)
    (s0 : σ) (schedule : List (Step σ)) : LoopState σ :=
  schedule.foldl (loopStep unmarshal)
    { t := t, state := s0, events := [], exit := LoopExit.running }

/-- A run of spaces and tabs. -/
def blanks (s : String) : Bool := s.toList.all (fun c => c == ' ' || c == '\t')

/-- A field of a block that the grammar can carry: not empty, on one line, and
not starting with a character of `\s`. -/
def fieldOk (s : String) : Bool :=
  match s.toList with
  | [] => false
  | c :: cs => !isSpace c && (c :: cs).all isDot

/-- Whitespace that stays on its line: characters of `\s` other than the
newline. -/
def padOk (s : String) : Bool := s.toList.all (fun c => isSpace c && isDot c)

/-- An event block in the framing grammar: the kind and the payload, each with
the whitespace that stands between the colon and it. -/
structure Block where
  kindPad : String
  kind : String
  payloadPad : String
  payload : String
deriving DecidableEq, Repr

/-- The text of a block: an `event:` line, a `data:` line, a blank line. -/
def Block.render (b : Block) : String :=
  "event:" ++ b.kindPad ++ b.kind ++ "\ndata:" ++ b.payloadPad ++ b.payload ++ "\n\n"

/-- A complete block: the kind and the payload are not empty, hold no newline
and start after the whitespace that follows the colon. -/
def Block.wellFormed (b : Block) : Bool :=
  padOk b.kindPad && fieldOk b.kind && padOk b.payloadPad && fieldOk b.payload

/-- Follows the spec's words: the event a block stands for, an `endpoint` block
its payload as the address, a `message` block the response its payload
decodes to; `none` for any other block. -/
def Block.event (unmarshal : String → Option Response) (b : Block) : Option StreamEvent :=
  if b.kind = "endpoint" then some (StreamEvent.endpoint b.payload)
  else if b.kind = "message" then (unmarshal b.payload).map StreamEvent.message
  else none

/-- Follows the spec's words, with the last writer winning: the payload of the
last `endpoint` block of a stream, `e` when it has none. -/
def lastEndpointPayload (e : String) : List Block → String
  | [] => e
  | b :: rest => lastEndpointPayload (if b.kind = "endpoint" then b.payload else e) rest

/-- The payload a step assigns to `Endpoint` when the loop takes it: the data of
the event of its chunk, when the read returns no error and the kind of the
event is `endpoint`. -/
def Step.endpointPayload {σ : Type} : Step σ → Option String
  | Step.read data none =>
    match extractSSEEvent data with
    | Except.ok m => if m.Event = "endpoint" then some m.Data else none
    | Except.error _ => none
  | _ => none

/-! ## pkg/mcp/client.go: the client and its request ids -/

/-- The behaviour of a value of the interface `transport.Transport`, as far as
the client sees it: the error `Start` returns, and the error `Send` returns for
a request (`none` is a nil error).  `OnMessage` only stores the callback. -/
structure Transport where
  Start : Option String
  Send : Request → Option String

/-- mcp.Client.  `transport` is nil until `Connect`.  The ledger maps an id to
a channel; a channel is named by the number of the `waitForResponse`
activation that made it (see `World`). -/
structure Client where
  transport : Option Transport
  Name : String
  Version : String
  Counter : Nat
  messageIdLedger : Nat → Option Nat
  pendingMessages : Nat → Option Response

/-- mcp.NewClient -/
def NewClient (name : String) (version : String) : Client :=
  { transport := none, Name := name, Version := version, Counter := 0,
    messageIdLedger := fun _ => none, pendingMessages := fun _ => none }

/-- The conversion `uint32(x)` of an `int`. -/
def uint32 (x : Int) : Nat := (x % 4294967296).toNat

/-- Method `Add` of `atomic.Uint32` on `c.Counter`: adds with wrap-around and
returns the new value. -/
def Client.CounterAdd (c : Client) (delta : Nat) : Client × Nat :=
  let v := (c.Counter + delta) % 4294967296
  ({ c with Counter := v }, v)

/-- How far the first half of a call got, up to the point where it starts to
wait for the response. -/
inductive Issue where
  /-- the call `Send(req)` returned nil; the call goes on to `waitForResponse(id)` -/
  | sent (id : Nat) (req : Request)
  /-- the call returned `err`; `req` is the request handed to `Send`, if `Send`
  was reached -/
  | failed (req : Option Request) (err : String)
  /-- the field `c.transport` is nil: the method call on it panics -/
  | panicked

/-- The request a call handed to `transport.Send`. -/
def Issue.request : Issue → Option Request
  | Issue.sent _ req => some req
  | Issue.failed req _ => req
  | Issue.panicked => none

/-- Client.Connect, lines 46-70. -/
def Client.ConnectSend (c : Client) (transport : Transport) : Client × Issue :=
  let (c1, initialisationMessageId) := c.CounterAdd 1
  let c2 := { c1 with transport := some transport }
  match transport.Start with
  | some err => (c2, Issue.failed none err)
  | none =>
    let req : Request :=
      { JsonRPC := "2.0", Id := (initialisationMessageId : Int), Method := "initialize",
        Params := [("protocolVersion", JValue.str "2024-11-05"),
                   ("capabilities", JValue.obj []),
                   ("clientInfo", JValue.obj [("name", JValue.str c.Name),
                                              ("version", JValue.str c.Version)])] }
    match transport.Send req with
    | some err => (c2, Issue.failed (some req) err)
    | none => (c2, Issue.sent initialisationMessageId req)

/-- Client.CallTool, lines 101-114. -/
def Client.CallToolSend (c : Client) (toolName : String)
    (arguments : List (String × JValue)) : Client × Issue :=
  let (c1, toolCallMessageId) := c.CounterAdd 1
  match c1.transport with
  | none => (c1, Issue.panicked)
  | some transport =>
    let req : Request :=
      { JsonRPC := "2.0", Id := (toolCallMessageId : Int), Method := "tools/call",
        Params := [("name", JValue.str toolName), ("arguments", JValue.obj arguments)] }
    match transport.Send req with
    | some err => (c1, Issue.failed (some req) err)
    | none => (c1, Issue.sent toolCallMessageId req)

/-- Client.ListTools, lines 152-162. -/
def Client.ListToolsSend (c : Client) : Client × Issue :=
  let (c1, toolsListMessageId) := c.CounterAdd 1
  match c1.transport with
  | none => (c1, Issue.panicked)
  | some transport =>
    let req : Request :=
      { JsonRPC := "2.0", Id := (toolsListMessageId : Int), Method := "tools/list",
        Params := [] }
    match transport.Send req with
    | some err => (c1, Issue.failed (some req) err)
    | none => (c1, Issue.sent toolsListMessageId req)

/-- A call of one of the three public operations. -/
inductive Call where
  | Connect (transport : Transport)
  | ListTools
  | CallTool (toolName : String) (arguments : List (String × JValue))

/-- The first half of a call. -/
def Client.issue (c : Client) : Call → Client × Issue
  | Call.Connect t => c.ConnectSend t
  | Call.ListTools => c.ListToolsSend
  | Call.CallTool n a => c.CallToolSend n a

/-- A sequence of calls on one client, in the order in which they take their
id from the counter; a panic ends the program. -/
def Client.issueAll : Client → List Call → List Issue
  | _, [] => []
  | c, call :: rest =>
    match c.issue call with
    | (_, Issue.panicked) => [Issue.panicked]
    | (c1, i) => i :: Client.issueAll c1 rest

/-- The ids on the requests handed to `transport.Send`, in order. -/
def requestIds (is : List Issue) : List Int :=
  is.filterMap (fun i => i.request.map (fun r => r.Id))

/-! ## pkg/mcp/client.go: the two correlation tables -/

/-- The point an activation of `waitForResponse` has reached. -/
inductive WaitPC where
  /-- line 85: a pending message was found and the lock released; the entry is
  not deleted yet -/
  | hit (pendingMessage : Response)
  /-- line 91: nothing was pending and the lock is released; the channel is not
  in the ledger yet -/
  | missed
  /-- line 97: the channel is in the ledger and the activation blocks on the
  receive -/
  | registered
  /-- the activation has returned this response; its channel is closed by the
  deferred `close` -/
  | returned (r : Response)

/-- An activation of `waitForResponse`. -/
structure Wait where
  messageID : Nat
  pc : WaitPC

/-- The client together with the goroutines inside `waitForResponse`.
Activation number `k` (its place in `waits`) made channel `k`; the channel is
closed exactly when the activation has returned. -/
structure World where
  c : Client
  waits : List Wait
  panicked : Bool

/-- A client that no goroutine has called yet. -/
def World.init (c : Client) : World := { c := c, waits := [], panicked := false }

/-- Sets the program point of activation `k`. -/
def setPC (waits : List Wait) (k : Nat) (pc : WaitPC) : List Wait :=
  match waits[k]? with
  | none => waits
  | some wt => waits.set k { wt with pc := pc }

/-- Client.OnMessage, as one step: it holds `messageIdMutex` from start to end.
With no channel for the id the message is stored in `pendingMessages`.
Otherwise it is sent on the channel: a receiver blocked on the channel takes it
and returns, and a send on a closed channel panics.  The ledger is not
written.  A channel gets into the ledger when its activation starts to block,
so its owner blocks on it or has returned; for any other owner the send finds
no receiver and the world stays as it is. -/
def OnMessage (w : World) (messageFromServer : Response) : World :=
  if w.panicked then w else
  match w.c.messageIdLedger (uint32 messageFromServer.Id) with
  | none =>
    let pending := Function.update w.c.pendingMessages (uint32 messageFromServer.Id)
      (some messageFromServer)
    { w with c := { w.c with pendingMessages := pending } }
  | some channel =>
    match w.waits[channel]? with
    | some { messageID := _, pc := WaitPC.registered } =>
      { w with waits := setPC w.waits channel (WaitPC.returned messageFromServer) }
    | some { messageID := _, pc := WaitPC.returned _ } => { w with panicked := true }
    | _ => w

/-- Client.waitForResponse, lines 79-91: a new activation makes its channel and
looks the id up in `pendingMessages` under `pendingMessagesMutex`. -/
def waitStart (w : World) (messageID : Nat) : World :=
  if w.panicked then w else
  match w.c.pendingMessages messageID with
  | some pendingMessage =>
    { w with waits := w.waits ++ [{ messageID := messageID, pc := WaitPC.hit pendingMessage }] }
  | none =>
    { w with waits := w.waits ++ [{ messageID := messageID, pc := WaitPC.missed }] }

/-- Client.waitForResponse, the next step of activation `k`: after a hit, line
87 deletes the pending entry and the activation returns; after a miss, lines
93-95 put the channel in the ledger under `messageIdMutex`.  A blocked or
finished activation has no step of its own. -/
def waitResume (w : World) (k : Nat) : World :=
  if w.panicked then w else
  match w.waits[k]? with
  | some { messageID := messageID, pc := WaitPC.hit pendingMessage } =>
    { w with
      c := { w.c with pendingMessages := Function.update w.c.pendingMessages messageID none },
      waits := setPC w.waits k (WaitPC.returned pendingMessage) }
  | some { messageID := messageID, pc := WaitPC.missed } =>
    { w with
      c := { w.c with messageIdLedger := Function.update w.c.messageIdLedger messageID (some k) },
      waits := setPC w.waits k WaitPC.registered }
  | _ => w

/-- What activation `k` has returned, `none` while it has not. -/
def World.result (w : World) (k : Nat) : Option Response :=
  match w.waits[k]? with
  | some { messageID := _, pc := WaitPC.returned r } => some r
  | _ => none

/-- Whether activation `k` blocks on its channel. -/
def World.blocked (w : World) (k : Nat) : Bool :=
  match w.waits[k]? with
  | some { messageID := _, pc := WaitPC.registered } => true
  | _ => false

/-- Client.waitForResponse run without another goroutine in between: the new
activation does its two steps; the result is the response it returns, `none`
when it blocks on the channel. -/
def waitForResponse (w : World) (messageID : Nat) : World × Option Response :=
  let k := w.waits.length
  let w2 := waitResume (waitStart w messageID) k
  (w2, w2.result k)

/-- A step of some goroutine. -/
inductive Action where
  /-- the receive loop calls `OnMessage` -/
  | dispatch (r : Response)
  /-- a caller enters `waitForResponse` and checks the pending table -/
  | wait (messageID : Nat)
  /-- activation `k` of `waitForResponse` does its next step -/
  | resume (k : Nat)

/-- The world after a step. -/
def World.step (w : World) : Action → World
  | Action.dispatch r => OnMessage w r
  | Action.wait messageID => waitStart w messageID
  | Action.resume k => waitResume w k

/-- The world after a schedule of steps. -/
def World.run (w : World) (schedule : List Action) : World :=
  schedule.foldl World.step w

/-- Both tables have an entry for the id. -/
def World.both (w : World) (id : Nat) : Bool :=
  (w.c.messageIdLedger id).isSome && (w.c.pendingMessages id).isSome

/-! ## pkg/mcp/client.go: decoding a response -/

/-- What a call gives back to its caller. -/
inductive Outcome (α : Type) where
  /-- the return `return v, nil` -/
  | ok (v : α)
  /-- the return `return nil, err`, with the text of `err` -/
  | error (text : String)
  /-- a run-time panic; nothing is returned -/
  | panic

/-- mcp.Tool -/
structure Tool where
  Name : String
  Description : String
  InputSchema : List (String × JValue)

/-- mcp.ToolCallResponseResult; a nil pointer is `none`.  The field `Type` is
`Type_` here. -/
structure ToolCallResponseResult where
  Type_ : String
  Text : Option String
  Data : Option String
  MimeType : Option String
deriving DecidableEq, Repr

/-- The index expression `m[key]` on a `map[string]interface{}`: the nil
interface when the key is absent. -/
def index (m : List (String × JValue)) (key : String) : JValue :=
  match m.lookup key with
  | some v => v
  | none => JValue.null

/-- The type assertion `x.(string)`; `none` when it panics. -/
def assertString : JValue → Option String
  | JValue.str s => some s
  | _ => none

/-- The type assertion `x.([]interface{})`; `none` when it panics. -/
def assertSlice : JValue → Option (List JValue)
  | JValue.arr items => some items
  | _ => none

/-- The type assertion `x.(map[string]interface{})`; `none` when it panics. -/
def assertMap : JValue → Option (List (String × JValue))
  | JValue.obj fields => some fields
  | _ => none

/-- mcp.convertInterfaceToStrPtr; the outer `none` when it panics. -/
def convertInterfaceToStrPtr (i : JValue) : Option (Option String) :=
  match i with
  | JValue.null => some none
  | _ =>
    match assertString i with
    | none => none
    | some str => some (some str)

/-- Client.CallTool, lines 125-136: the body of the loop, `none` when it
panics. -/
def callToolItem (ct : JValue) : Option ToolCallResponseResult :=
  match assertMap ct with
  | none => none
  | some ct =>
    let text := index ct "text"
    let data := index ct "data"
    let mimeType := index ct "mimeType"
    match assertString (index ct "type") with
    | none => none
    | some ty =>
      match convertInterfaceToStrPtr text with
      | none => none
      | some tx =>
        match convertInterfaceToStrPtr data with
        | none => none
        | some dt =>
          match convertInterfaceToStrPtr mimeType with
          | none => none
          | some mt => some { Type_ := ty, Text := tx, Data := dt, MimeType := mt }

/-- Client.CallTool, lines 124-139: the loop over the content. -/
def callToolLoop : List JValue → List ToolCallResponseResult →
    Outcome (List ToolCallResponseResult)
  | [], result => Outcome.ok result
  | ct :: rest, result =>
    match callToolItem ct with
    | none => Outcome.panic
    | some r => callToolLoop rest (result ++ [r])

/-- Client.CallTool, lines 118-139: what the call does with the response
`waitForResponse` returned. -/
def CallToolRecv (toolCallResponse : Response) : Outcome (List ToolCallResponseResult) :=
  match toolCallResponse.Error with
  | some e => Outcome.error ("error: " ++ e.Message)
  | none =>
    match assertSlice (index toolCallResponse.Result "content") with
    | none => Outcome.panic
    | some toolCallResponseString => callToolLoop toolCallResponseString []

/-- Client.ListTools, lines 173-178: the body of the loop, `none` when it
panics. -/
def listToolsItem (v : JValue) : Option Tool :=
  match assertMap v with
  | none => none
  | some tool =>
    match assertString (index tool "name") with
    | none => none
    | some name =>
      match assertString (index tool "description") with
      | none => none
      | some description =>
        match assertMap (index tool "inputSchema") with
        | none => none
        | some inputSchema =>
          some { Name := name, Description := description, InputSchema := inputSchema }

/-- Client.ListTools, lines 172-181: the loop over the tools. -/
def listToolsLoop : List JValue → List Tool → Outcome (List Tool)
  | [], tools => Outcome.ok tools
  | v :: rest, tools =>
    match listToolsItem v with
    | none => Outcome.panic
    | some tool => listToolsLoop rest (tools ++ [tool])

/-- Client.ListTools, lines 166-181: what the call does with the response
`waitForResponse` returned. -/
def ListToolsRecv (resp : Response) : Outcome (List Tool) :=
  match resp.Error with
  | some e => Outcome.error ("error: " ++ e.Message)
  | none =>
    match assertSlice (index resp.Result "tools") with
    | none => Outcome.panic
    | some items => listToolsLoop items []

/-! ### The shapes the decoders expect, in the words of the specification -/

/-- A field that is absent (or null) or a string. -/
def optionalString : JValue → Bool
  | JValue.null => true
  | JValue.str _ => true
  | _ => false

/-- A field that is a string. -/
def isString : JValue → Bool
  | JValue.str _ => true
  | _ => false

/-- A field that is an object. -/
def isObject : JValue → Bool
  | JValue.obj _ => true
  | _ => false

/-- An element of `result.content`: an object with a string `type`, and with
`text`, `data` and `mimeType` each absent or a string. -/
def contentItemOk : JValue → Bool
  | JValue.obj fields =>
    isString (index fields "type") && optionalString (index fields "text") &&
    optionalString (index fields "data") && optionalString (index fields "mimeType")
  | _ => false

/-- The field `result.content` is an array of such elements. -/
def contentOk (result : List (String × JValue)) : Bool :=
  match index result "content" with
  | JValue.arr items => items.all contentItemOk
  | _ => false

/-- An element of `result.tools`: an object with strings `name` and
`description` and an object `inputSchema`. -/
def toolItemOk : JValue → Bool
  | JValue.obj fields =>
    isString (index fields "name") && isString (index fields "description") &&
    isObject (index fields "inputSchema")
  | _ => false

/-- The field `result.tools` is an array of such elements. -/
def toolsOk (result : List (String × JValue)) : Bool :=
  match index result "tools" with
  | JValue.arr items => items.all toolItemOk
  | _ => false

/-- The string of an optional field, `none` when it is absent. -/
def stringOf : JValue → Option String
  | JValue.str s => some s
  | _ => none

/-- The record the specification gives for an element of `result.content`. -/
def recordOf : JValue → ToolCallResponseResult
  | JValue.obj fields =>
    { Type_ := (stringOf (index fields "type")).getD "",
      Text := stringOf (index fields "text"),
      Data := stringOf (index fields "data"),
      MimeType := stringOf (index fields "mimeType") }
  | _ => { Type_ := "", Text := none, Data := none, MimeType := none }

/-- The elements of `result.content`. -/
def contentItems (result : List (String × JValue)) : List JValue :=
  match index result "content" with
  | JValue.arr items => items
  | _ => []

/-! # Theorems -/

/-! ## Lemmas on the framer -/

theorem tryDown_of_some {α : Type} (f : Nat → Option α) (n : Nat) (r : α)
    (h : f n = some r) : tryDown f n = some r := by
  cases n with
  | zero => simpa [tryDown] using h
  | succ n => simp [tryDown, h]

theorem spanLen_append (cls : Char → Bool) (a inp : List Char)
    (ha : ∀ c ∈ a, cls c = true) (hstop : spanLen cls inp = 0) :
    spanLen cls (a ++ inp) = a.length := by
  induction a with
  | nil => simpa using hstop
  | cons c cs ih =>
    have hc : cls c = true := ha c (List.mem_cons_self _ _)
    have hcs : ∀ d ∈ cs, cls d = true := fun d hd => ha d (List.mem_cons_of_mem _ hd)
    simp [spanLen, hc, ih hcs]

theorem matchHere_lit (s : List Char) (rest : List Atom) (inp : List Char) :
    matchHere (Atom.lit s :: rest) (s ++ inp) = extend s.length none (matchHere rest inp) := by
  have hp : s.isPrefixOf (s ++ inp) = true := by
    rw [List.isPrefixOf_iff_prefix]
    exact List.prefix_append s inp
  simp [matchHere, hp]

theorem matchHere_star (cls : Char → Bool) (rest : List Atom) (a inp : List Char)
    (r : Nat × List (List Char))
    (ha : ∀ c ∈ a, cls c = true) (hstop : spanLen cls inp = 0)
    (hr : matchHere rest inp = some r) :
    matchHere (Atom.star cls :: rest) (a ++ inp) = extend a.length none (some r) := by
  rw [matchHere, spanLen_append cls a inp ha hstop]
  apply tryDown_of_some
  simp only [List.drop_left, hr]
  rcases r with ⟨n, caps⟩
  rfl

theorem matchHere_group (cls : Char → Bool) (rest : List Atom) (a inp : List Char)
    (r : Nat × List (List Char))
    (hne : a ≠ []) (ha : ∀ c ∈ a, cls c = true) (hstop : spanLen cls inp = 0)
    (hr : matchHere rest inp = some r) :
    matchHere (Atom.group cls :: rest) (a ++ inp) = extend a.length (some a) (some r) := by
  obtain ⟨m, hm⟩ : ∃ m, a.length = m + 1 := by
    cases a with
    | nil => exact absurd rfl hne
    | cons c cs => exact ⟨cs.length, rfl⟩
  have hs := spanLen_append cls a inp ha hstop
  rw [hm] at hs
  rw [matchHere, hs]
  simp only
  apply tryDown_of_some
  have ht : List.take (m + 1) (a ++ inp) = a := by
    rw [← hm]; simp
  have hd : List.drop (m + 1) (a ++ inp) = inp := by
    rw [← hm]; simp
  simp only [ht, hd, hr, hm]
  rcases r with ⟨n, caps⟩
  rfl

theorem spanLen_head_false (cls : Char → Bool) (c : Char) (cs : List Char)
    (h : cls c = false) : spanLen cls (c :: cs) = 0 := by
  simp [spanLen, h]

/-- The expression matches a block at once, without backtracking: the first
group is the rest of the `event:` line after its leading `\s` characters, the
second the rest of the `data:` line after its leading `\s` characters. -/
theorem matchHere_block (ws1 k ws3 p tail : List Char)
    (h1 : ∀ c ∈ ws1, isSpace c = true) (h3 : ∀ c ∈ ws3, isSpace c = true)
    (hk0 : k ≠ []) (hk1 : spanLen isSpace k = 0) (hk : ∀ c ∈ k, isDot c = true)
    (hp0 : p ≠ []) (hp1 : spanLen isSpace p = 0) (hp : ∀ c ∈ p, isDot c = true) :
    matchHere sseRegex ("event:".toList ++ (ws1 ++ (k ++ ("\ndata:".toList ++
      (ws3 ++ (p ++ ("\n\n".toList ++ tail)))))))
      = some (6 + (ws1.length + (k.length + (6 + (ws3.length + (p.length + (2 + 0)))))),
          [k, p]) := by
  have stopK : ∀ rest : List Char, spanLen isSpace (k ++ rest) = 0 := by
    intro rest
    cases k with
    | nil => exact absurd rfl hk0
    | cons c cs =>
      by_cases hc : isSpace c = true
      · simp [spanLen, hc] at hk1
      · simp [spanLen, hc]
  have stopP : ∀ rest : List Char, spanLen isSpace (p ++ rest) = 0 := by
    intro rest
    cases p with
    | nil => exact absurd rfl hp0
    | cons c cs =>
      by_cases hc : isSpace c = true
      · simp [spanLen, hc] at hp1
      · simp [spanLen, hc]
  have stopNl : ∀ (s rest : List Char), spanLen isDot (('\n' :: s) ++ rest) = 0 := by
    intro s rest
    exact spanLen_head_false isDot '\n' (s ++ rest) (by decide)
  have e7 : matchHere [] tail = some (0, []) := by simp [matchHere]
  have e6 : matchHere [Atom.lit "\n\n".toList] ("\n\n".toList ++ tail) = some (2 + 0, []) := by
    rw [matchHere_lit, e7]; rfl
  have e5 := matchHere_group isDot [Atom.lit "\n\n".toList] p ("\n\n".toList ++ tail) _
    hp0 hp (stopNl ['\n'] tail) e6
  have e4 := matchHere_star isSpace _ ws3 (p ++ ("\n\n".toList ++ tail)) _ h3 (stopP _) e5
  have e3 : matchHere (Atom.lit "\ndata:".toList :: [Atom.star isSpace, Atom.group isDot,
      Atom.lit "\n\n".toList]) ("\ndata:".toList ++ (ws3 ++ (p ++ ("\n\n".toList ++ tail))))
      = some (6 + (ws3.length + (p.length + (2 + 0))), [p]) := by
    rw [matchHere_lit, e4]; rfl
  have e2 : matchHere [Atom.group isDot, Atom.lit "\ndata:".toList, Atom.star isSpace,
      Atom.group isDot, Atom.lit "\n\n".toList]
      (k ++ ("\ndata:".toList ++ (ws3 ++ (p ++ ("\n\n".toList ++ tail)))))
      = extend k.length (some k) (some (6 + (ws3.length + (p.length + (2 + 0))), [p])) :=
    matchHere_group isDot _ k _ _ hk0 hk (stopNl "data:".toList _) e3
  have e1 := matchHere_star isSpace _ ws1 _ _ h1 (stopK _) e2
  show matchHere (Atom.lit "event:".toList :: _) _ = _
  rw [matchHere_lit, e1]; rfl

theorem FindStringSubmatch_of_match (re : List Atom) (inp : List Char) (n : Nat)
    (caps : List (List Char)) (h : matchHere re inp = some (n, caps)) :
    FindStringSubmatch re inp = String.mk (inp.take n) :: caps.map String.mk := by
  cases inp with
  | nil => simp [FindStringSubmatch, h]
  | cons c cs => simp [FindStringSubmatch, h]

theorem extract_of_match (input : String) (n : Nat) (k p : List Char)
    (h : matchHere sseRegex input.toList = some (n, [k, p])) :
    extractSSEEvent input = Except.ok { Event := String.mk k, Data := String.mk p } := by
  unfold extractSSEEvent
  rw [FindStringSubmatch_of_match _ _ _ _ h]
  rfl

/-- The string form of `matchHere_block`: `extractSSEEvent` on a text that starts
with a block returns that block, whatever follows it. -/
theorem extract_list (ws1 k ws3 p tail : List Char)
    (h1 : ∀ c ∈ ws1, isSpace c = true) (h3 : ∀ c ∈ ws3, isSpace c = true)
    (hk0 : k ≠ []) (hk1 : spanLen isSpace k = 0) (hk : ∀ c ∈ k, isDot c = true)
    (hp0 : p ≠ []) (hp1 : spanLen isSpace p = 0) (hp : ∀ c ∈ p, isDot c = true) :
    extractSSEEvent (String.mk ("event:".toList ++ (ws1 ++ (k ++ ("\ndata:".toList ++
      (ws3 ++ (p ++ ("\n\n".toList ++ tail))))))))
      = Except.ok { Event := String.mk k, Data := String.mk p } :=
  extract_of_match _ _ k p (matchHere_block ws1 k ws3 p tail h1 h3 hk0 hk1 hk hp0 hp1 hp)

theorem blanks_isSpace (s : String) (h : blanks s = true) : ∀ c ∈ s.toList, isSpace c = true := by
  intro c hc
  have := (List.all_eq_true.mp h) c hc
  simp only [Bool.or_eq_true, beq_iff_eq] at this
  rcases this with h | h <;> subst h <;> decide

theorem blanks_isDot (s : String) (h : blanks s = true) : ∀ c ∈ s.toList, isDot c = true := by
  intro c hc
  have := (List.all_eq_true.mp h) c hc
  simp only [Bool.or_eq_true, beq_iff_eq] at this
  rcases this with h | h <;> subst h <;> decide

theorem fieldOk_spec (s : String) (h : fieldOk s = true) :
    s.toList ≠ [] ∧ spanLen isSpace s.toList = 0 ∧ ∀ c ∈ s.toList, isDot c = true := by
  cases hs : s.toList with
  | nil => rw [fieldOk, hs] at h; exact absurd h (by decide)
  | cons c cs =>
    rw [fieldOk, hs] at h
    simp only [Bool.and_eq_true, Bool.not_eq_true', List.all_eq_true] at h
    exact ⟨by simp, spanLen_head_false isSpace c cs h.1, h.2⟩

/-! ## The framer: whitespace around the kind and the payload -/

theorem padded_eq (K P ws1 ws2 ws3 ws4 : String) :
    "event:" ++ ws1 ++ K ++ ws2 ++ "\n" ++ "data:" ++ ws3 ++ P ++ ws4 ++ "\n\n"
      = String.mk ("event:".toList ++ (ws1.toList ++ ((K ++ ws2).toList ++ ("\ndata:".toList ++
          (ws3.toList ++ ((P ++ ws4).toList ++ ("\n\n".toList ++ []))))))) := by
  apply String.ext
  simp [String.toList, String.data_append]

theorem field_append (K ws : String) (hK : fieldOk K = true) (hw : blanks ws = true) :
    (K ++ ws).toList ≠ [] ∧ spanLen isSpace (K ++ ws).toList = 0 ∧
      ∀ c ∈ (K ++ ws).toList, isDot c = true := by
  obtain ⟨h0, h1, h2⟩ := fieldOk_spec K hK
  have hl : (K ++ ws).toList = K.toList ++ ws.toList := by
    simp [String.toList, String.data_append]
  rw [hl]
  refine ⟨fun h => h0 (List.append_eq_nil.mp h).1, ?_, ?_⟩
  · cases hk : K.toList with
    | nil => exact absurd hk h0
    | cons c cs =>
      rw [hk] at h1
      by_cases hc : isSpace c = true
      · simp [spanLen, hc] at h1
      · simp [spanLen, hc]
  · intro c hc
    rcases List.mem_append.mp hc with h | h
    · exact h2 c h
    · exact blanks_isDot ws hw c h

/-- C8 (amended): for a kind `K` and a payload `P` that are not empty, hold no
newline and do not start with whitespace, and for runs of spaces or tabs
`ws1` .. `ws4`, `extractSSEEvent` on
`"event:" + ws1 + K + ws2 + "\n" + "data:" + ws3 + P + ws4 + "\n\n"` succeeds with
`Event = K + ws2` and `Data = P + ws4`: the whitespace before the kind and the
payload is stripped, the whitespace after them is kept. -/
theorem extractSSEEvent_padded (K P ws1 ws2 ws3 ws4 : String)
    (hK : fieldOk K = true) (hP : fieldOk P = true)
    (h1 : blanks ws1 = true) (h2 : blanks ws2 = true)
    (h3 : blanks ws3 = true) (h4 : blanks ws4 = true) :
    extractSSEEvent
        ("event:" ++ ws1 ++ K ++ ws2 ++ "\n" ++ "data:" ++ ws3 ++ P ++ ws4 ++ "\n\n")
      = Except.ok { Event := K ++ ws2, Data := P ++ ws4 } := by
  obtain ⟨k0, k1, k2⟩ := field_append K ws2 hK h2
  obtain ⟨p0, p1, p2⟩ := field_append P ws4 hP h4
  rw [padded_eq]
  exact extract_list ws1.toList (K ++ ws2).toList ws3.toList (P ++ ws4).toList []
    (blanks_isSpace ws1 h1) (blanks_isSpace ws3 h3) k0 k1 k2 p0 p1 p2

/-- Witness of C8 (amended): the kind `endpoint` and the payload `/messages`,
padded on both sides. -/
theorem extractSSEEvent_padded_witness :
    extractSSEEvent
        ("event:" ++ " \t" ++ "endpoint" ++ "  " ++ "\n" ++ "data:" ++ " " ++ "/messages"
          ++ "\t" ++ "\n\n")
      = Except.ok { Event := "endpoint" ++ "  ", Data := "/messages" ++ "\t" } :=
  extractSSEEvent_padded "endpoint" "/messages" " \t" "  " " " "\t"
    (by decide) (by decide) (by decide) (by decide) (by decide) (by decide)

/-- C8 as stated fails: with one space after the kind, `Event` is `"endpoint "`,
which is not `"endpoint"`, so the receive loop does not take the block for an
`endpoint` event. -/
theorem extractSSEEvent_trailing_counterexample :
    extractSSEEvent ("event:" ++ " " ++ "endpoint" ++ " " ++ "\n" ++ "data:" ++ " " ++ "/a"
        ++ "" ++ "\n\n")
      = Except.ok { Event := "endpoint ", Data := "/a" } ∧
    extractSSEEvent ("event:" ++ " " ++ "endpoint" ++ " " ++ "\n" ++ "data:" ++ " " ++ "/a"
        ++ "" ++ "\n\n")
      ≠ Except.ok { Event := "endpoint", Data := "/a" } ∧
    (receiveLoop (fun _ => none) (NewSSETransport "http://localhost:8777" []) ()
      [Step.read "event: endpoint \ndata: /a\n\n" none]).t.Endpoint = "" := by
  refine ⟨rfl, ?_, rfl⟩
  intro h
  have h2 : (Except.ok { Event := "endpoint ", Data := "/a" } : Except String SSEMessage)
      = Except.ok { Event := "endpoint", Data := "/a" } := Eq.trans (Eq.symm rfl) h
  injection h2 with h3
  exact absurd h3 (by decide)

/-! ## The receive loop: one step, and a stream of blocks -/

theorem receiveLoop_snoc {σ : Type} (unmarshal : String → Option Response)
    (t : SSETransport σ) (s0 : σ) (pre : List (Step σ)) (step : Step σ) :
    receiveLoop unmarshal t s0 (pre ++ [step])
      = loopStep unmarshal (receiveLoop unmarshal t s0 pre) step := by
  simp [receiveLoop, List.foldl_append]

theorem loopStep_endpoint {σ : Type} (unmarshal : String → Option Response)
    (s : LoopState σ) (step : Step σ) :
    (loopStep unmarshal s step).t.Endpoint =
      if s.exit = LoopExit.running then step.endpointPayload.getD s.t.Endpoint
      else s.t.Endpoint := by
  cases step with
  | register callback =>
    simp [loopStep, SSETransport.OnMessage, Step.endpointPayload]
  | read data err =>
    by_cases hrun : s.exit = LoopExit.running
    · simp only [loopStep, hrun, if_true]
      cases err with
      | some e => cases e <;> simp [Step.endpointPayload]
      | none =>
        simp only [Step.endpointPayload]
        cases hx : extractSSEEvent data with
        | error e => simp
        | ok m =>
          simp only
          by_cases he : m.Event = "endpoint"
          · have hm : ¬ m.Event = "message" := by rw [he]; decide
            simp [he, hm]
          · by_cases hm : m.Event = "message"
            · simp only [he, hm, if_true, if_false]
              cases unmarshal m.Data with
              | none => simp
              | some r =>
                simp only
                split <;> rfl
            · simp [he, hm]
    · simp only [hrun, if_false]
      cases hex : s.exit <;> simp_all [loopStep]

theorem padOk_isSpace (s : String) (h : padOk s = true) :
    ∀ c ∈ s.toList, isSpace c = true := by
  intro c hc
  have := (List.all_eq_true.mp h) c hc
  simp only [Bool.and_eq_true] at this
  exact this.1

theorem extract_render (b : Block) (h : b.wellFormed = true) :
    extractSSEEvent b.render = Except.ok { Event := b.kind, Data := b.payload } := by
  simp only [Block.wellFormed, Bool.and_eq_true] at h
  obtain ⟨⟨⟨h1, hk⟩, h3⟩, hp⟩ := h
  obtain ⟨k0, k1, k2⟩ := fieldOk_spec b.kind hk
  obtain ⟨p0, p1, p2⟩ := fieldOk_spec b.payload hp
  have hr : b.render = String.mk ("event:".toList ++ (b.kindPad.toList ++ (b.kind.toList ++
      ("\ndata:".toList ++ (b.payloadPad.toList ++ (b.payload.toList ++
        ("\n\n".toList ++ []))))))) := by
    apply String.ext
    simp [Block.render, String.toList, String.data_append]
  rw [hr]
  exact extract_list b.kindPad.toList b.kind.toList b.payloadPad.toList b.payload.toList []
    (padOk_isSpace _ h1) (padOk_isSpace _ h3) k0 k1 k2 p0 p1 p2

/-- A stream of complete blocks, each delivered by one read without error, from
any state in which the loop runs: the loop goes on running, logs the event of
every block, and leaves in `Endpoint` the payload of the last `endpoint`
block. -/
theorem loop_blocks_aux {σ : Type} (unmarshal : String → Option Response) (bs : List Block)
    (hwf : ∀ b ∈ bs, b.wellFormed = true)
    (hev : ∀ b ∈ bs, (b.event unmarshal).isSome = true) :
    ∀ s : LoopState σ, s.exit = LoopExit.running →
      (∀ b ∈ bs, b.kind = "message" → s.t.MessageCallback.isSome = true) →
      ((bs.map (fun b => Step.read b.render none)).foldl (loopStep unmarshal) s).events.map some
          = s.events.map some ++ bs.map (Block.event unmarshal) ∧
      ((bs.map (fun b => Step.read b.render none)).foldl (loopStep unmarshal) s).exit
          = LoopExit.running ∧
      ((bs.map (fun b => Step.read b.render none)).foldl (loopStep unmarshal) s).t.Endpoint
          = lastEndpointPayload s.t.Endpoint bs := by
  induction bs with
  | nil => intro s hrun _; simp [hrun, lastEndpointPayload]
  | cons b rest ih =>
    intro s hrun hcb
    have hb := hwf b (List.mem_cons_self _ _)
    have he := hev b (List.mem_cons_self _ _)
    have hrest := ih (fun x hx => hwf x (List.mem_cons_of_mem _ hx))
      (fun x hx => hev x (List.mem_cons_of_mem _ hx))
    have hx := extract_render b hb
    simp only [List.map_cons, List.foldl_cons]
    by_cases hk : b.kind = "endpoint"
    · have hm : ¬ ("endpoint" : String) = "message" := by decide
      have hstep : loopStep unmarshal s (Step.read b.render none) =
          { s with
            t := { s.t with Endpoint := b.payload },
            events := s.events ++ [StreamEvent.endpoint b.payload] } := by
        simp [loopStep, hrun, hx, hk, hm]
      rw [hstep]
      obtain ⟨h1, h2, h3⟩ := hrest
        { s with
          t := { s.t with Endpoint := b.payload },
          events := s.events ++ [StreamEvent.endpoint b.payload] } hrun
        (fun x hx2 hxm => hcb x (List.mem_cons_of_mem _ hx2) hxm)
      refine ⟨?_, h2, ?_⟩
      · rw [h1]; simp [Block.event, hk]
      · rw [h3]; simp [lastEndpointPayload, hk]
    · by_cases hm : b.kind = "message"
      · have hk2 : ¬ ("message" : String) = "endpoint" := by decide
        cases hu : unmarshal b.payload with
        | none => simp [Block.event, hk, hm, hu] at he
        | some r =>
          have hc := hcb b (List.mem_cons_self _ _) hm
          cases hcall : s.t.MessageCallback with
          | none => simp [hcall] at hc
          | some callback =>
            have hstep : loopStep unmarshal s (Step.read b.render none) =
                { s with
                  state := callback r s.state,
                  events := s.events ++ [StreamEvent.message r] } := by
              simp [loopStep, hrun, hx, hm, hk2, hu, hcall]
            rw [hstep]
            obtain ⟨h1, h2, h3⟩ := hrest
              { s with
                state := callback r s.state,
                events := s.events ++ [StreamEvent.message r] } hrun
              (fun x hx2 hxm => hcb x (List.mem_cons_of_mem _ hx2) hxm)
            refine ⟨?_, h2, ?_⟩
            · rw [h1]; simp [Block.event, hm, hk2, hu]
            · rw [h3]; simp [lastEndpointPayload, hk]
      · simp [Block.event, hk, hm] at he

/-! ## The receive loop: the endpoint -/

/-- C9 (amended): the receive loop starts with the endpoint of its transport.
While it runs, every read without error whose chunk is an `endpoint` event
assigns the payload of that event to `Endpoint`, whatever `Endpoint` held
before, and no other step (a `message` event, an event of another kind, a
failed read or extraction, a registration, any step after the loop is left)
changes it.  So after a stream of complete blocks, one per read, `Endpoint`
holds the payload of the last `endpoint` block: the last writer wins. -/
theorem receiveLoop_endpoint_last {σ : Type} (unmarshal : String → Option Response)
    (t : SSETransport σ) (s0 : σ) :
    (receiveLoop unmarshal t s0 []).t.Endpoint = t.Endpoint ∧
    (∀ (pre : List (Step σ)) (step : Step σ),
      (receiveLoop unmarshal t s0 (pre ++ [step])).t.Endpoint =
        if (receiveLoop unmarshal t s0 pre).exit = LoopExit.running
        then step.endpointPayload.getD (receiveLoop unmarshal t s0 pre).t.Endpoint
        else (receiveLoop unmarshal t s0 pre).t.Endpoint) ∧
    (∀ bs : List Block, (∀ b ∈ bs, b.wellFormed = true) →
      (∀ b ∈ bs, (b.event unmarshal).isSome = true) →
      (∀ b ∈ bs, b.kind = "message" → t.MessageCallback.isSome = true) →
      (receiveLoop unmarshal t s0 (bs.map (fun b => Step.read b.render none))).t.Endpoint
        = lastEndpointPayload t.Endpoint bs) := by
  refine ⟨rfl, ?_, ?_⟩
  · intro pre step
    rw [receiveLoop_snoc]
    exact loopStep_endpoint unmarshal _ step
  · intro bs hwf hev hcb
    exact (loop_blocks_aux unmarshal bs hwf hev
      { t := t, state := s0, events := [], exit := LoopExit.running } rfl hcb).2.2

/-- Witness of C9 (amended): the blocks `endpoint /a`, `message {}` and
`endpoint /b`, on a transport whose callback is the `OnMessage` of a client. -/
theorem receiveLoop_endpoint_last_witness :
    (receiveLoop (fun _ => some { JsonRPC := "2.0", Id := 1, Result := [], Error := none })
      ((NewSSETransport "http://localhost:8777" []).OnMessage (fun r w => OnMessage w r))
      (World.init (NewClient "spark" "1.0.0"))
      [Step.read "event: endpoint\ndata: /a\n\n" none,
       Step.read "event:message\ndata:\t{}\n\n" none,
       Step.read "event: endpoint\ndata: /b\n\n" none]).t.Endpoint = "/b" :=
  (receiveLoop_endpoint_last
    (fun _ => some { JsonRPC := "2.0", Id := 1, Result := [], Error := none })
    ((NewSSETransport "http://localhost:8777" []).OnMessage (fun r w => OnMessage w r))
    (World.init (NewClient "spark" "1.0.0"))).2.2
    [{ kindPad := " ", kind := "endpoint", payloadPad := " ", payload := "/a" },
     { kindPad := "", kind := "message", payloadPad := "\t", payload := "{}" },
     { kindPad := " ", kind := "endpoint", payloadPad := " ", payload := "/b" }]
    (by decide) (by decide) (by decide)

/-- C9 as stated fails: after the events `endpoint /a` and `endpoint /b` the
endpoint is `/b`, not the payload `/a` of the first one. -/
theorem receiveLoop_endpoint_counterexample :
    (receiveLoop (fun _ => none) (NewSSETransport "http://localhost:8777" []) ()
      [Step.read "event: endpoint\ndata: /a\n\n" none]).t.Endpoint = "/a" ∧
    (receiveLoop (fun _ => none) (NewSSETransport "http://localhost:8777" []) ()
      [Step.read "event: endpoint\ndata: /a\n\n" none,
       Step.read "event: endpoint\ndata: /b\n\n" none]).t.Endpoint = "/b" ∧
    (receiveLoop (fun _ => none) (NewSSETransport "http://localhost:8777" []) ()
      [Step.read "event: endpoint\ndata: /a\n\n" none,
       Step.read "event: endpoint\ndata: /b\n\n" none]).t.Endpoint ≠ "/a" := by
  refine ⟨rfl, rfl, ?_⟩
  intro h
  have h2 : "/b" = "/a" := Eq.trans (Eq.symm rfl) h
  exact absurd h2 (by decide)

/-! ## The receive loop: chunks and blocks -/

/-- C4 (amended): for every byte stream that is a concatenation of complete event
blocks of kind `endpoint` or `message` (an `event:` line and a `data:` line,
each with optional whitespace after the colon and then a kind or payload that
is not empty, and a blank line; a `message` payload that decodes), when every
read that returns without error delivers exactly one block, the stream ends
with a read that returns `io.EOF`, and a callback is registered if the stream
holds a `message` block, the receive loop produces one event per block in
stream order and leaves at the end of the stream.  What the last read returns
together with `io.EOF` is dropped. -/
theorem receiveLoop_one_block_per_chunk {σ : Type} (unmarshal : String → Option Response)
    (t : SSETransport σ) (s0 : σ) (bs : List Block) (last : String)
    (hwf : ∀ b ∈ bs, b.wellFormed = true)
    (hev : ∀ b ∈ bs, (b.event unmarshal).isSome = true)
    (hcb : ∀ b ∈ bs, b.kind = "message" → t.MessageCallback.isSome = true) :
    (receiveLoop unmarshal t s0 (bs.map (fun b => Step.read b.render none)
        ++ [Step.read last (some ReadError.EOF)])).events.map some
      = bs.map (Block.event unmarshal) ∧
    (receiveLoop unmarshal t s0 (bs.map (fun b => Step.read b.render none)
        ++ [Step.read last (some ReadError.EOF)])).exit = LoopExit.eof := by
  obtain ⟨h1, h2, _⟩ := loop_blocks_aux unmarshal bs hwf hev
    { t := t, state := s0, events := [], exit := LoopExit.running } rfl hcb
  have h1' : (receiveLoop unmarshal t s0
      (bs.map (fun b => Step.read b.render none))).events.map some
      = bs.map (Block.event unmarshal) := by simpa using h1
  have h2' : (receiveLoop unmarshal t s0
      (bs.map (fun b => Step.read b.render none))).exit = LoopExit.running := h2
  rw [receiveLoop_snoc]
  simp only [loopStep, h2']
  exact ⟨h1', trivial⟩

/-- Witness of C4 (amended): an `endpoint` block and a `message` block, one per
read, on a transport whose callback is the `OnMessage` of a client. -/
theorem receiveLoop_one_block_per_chunk_witness :
    (receiveLoop (fun _ => some { JsonRPC := "2.0", Id := 1, Result := [], Error := none })
      ((NewSSETransport "http://localhost:8777" []).OnMessage (fun r w => OnMessage w r))
      (World.init (NewClient "spark" "1.0.0"))
      [Step.read "event: endpoint\ndata: /a\n\n" none,
       Step.read "event:message\ndata:\t{}\n\n" none,
       Step.read "" (some ReadError.EOF)]).events.map some
      = [some (StreamEvent.endpoint "/a"),
         some (StreamEvent.message { JsonRPC := "2.0", Id := 1, Result := [], Error := none })] ∧
    (receiveLoop (fun _ => some { JsonRPC := "2.0", Id := 1, Result := [], Error := none })
      ((NewSSETransport "http://localhost:8777" []).OnMessage (fun r w => OnMessage w r))
      (World.init (NewClient "spark" "1.0.0"))
      [Step.read "event: endpoint\ndata: /a\n\n" none,
       Step.read "event:message\ndata:\t{}\n\n" none,
       Step.read "" (some ReadError.EOF)]).exit = LoopExit.eof :=
  receiveLoop_one_block_per_chunk
    (fun _ => some { JsonRPC := "2.0", Id := 1, Result := [], Error := none })
    ((NewSSETransport "http://localhost:8777" []).OnMessage (fun r w => OnMessage w r))
    (World.init (NewClient "spark" "1.0.0"))
    [{ kindPad := " ", kind := "endpoint", payloadPad := " ", payload := "/a" },
     { kindPad := "", kind := "message", payloadPad := "\t", payload := "{}" }] ""
    (by decide) (by decide) (by decide)

/-- C4 as stated fails.  The stream of the two blocks `endpoint /a` and
`endpoint /b` gives two events when each block is a chunk, one event when both
blocks are in one chunk, one event when the second block comes with `io.EOF`,
and no event, with the loop left on an error, when the first block is cut in
two.  And a `message` block read while `MessageCallback` is still nil, as on a
transport fresh from `NewSSETransport`, gives no event: the call panics. -/
theorem receiveLoop_chunking_counterexample :
    (receiveLoop (fun _ => none) (NewSSETransport "http://localhost:8777" []) ()
      [Step.read "event: endpoint\ndata: /a\n\n" none,
       Step.read "event: endpoint\ndata: /b\n\n" none,
       Step.read "" (some ReadError.EOF)]).events
      = [StreamEvent.endpoint "/a", StreamEvent.endpoint "/b"] ∧
    (receiveLoop (fun _ => none) (NewSSETransport "http://localhost:8777" []) ()
      [Step.read "event: endpoint\ndata: /a\n\nevent: endpoint\ndata: /b\n\n" none,
       Step.read "" (some ReadError.EOF)]).events
      = [StreamEvent.endpoint "/a"] ∧
    (receiveLoop (fun _ => none) (NewSSETransport "http://localhost:8777" []) ()
      [Step.read "event: endpoint\ndata: /a\n\n" none,
       Step.read "event: endpoint\ndata: /b\n\n" (some ReadError.EOF)]).events
      = [StreamEvent.endpoint "/a"] ∧
    (receiveLoop (fun _ => none) (NewSSETransport "http://localhost:8777" []) ()
      [Step.read "event: endpoint\nda" none, Step.read "ta: /a\n\n" none,
       Step.read "event: endpoint\ndata: /b\n\n" none,
       Step.read "" (some ReadError.EOF)]).events = [] ∧
    (receiveLoop (fun _ => none) (NewSSETransport "http://localhost:8777" []) ()
      [Step.read "event: endpoint\nda" none, Step.read "ta: /a\n\n" none,
       Step.read "event: endpoint\ndata: /b\n\n" none,
       Step.read "" (some ReadError.EOF)]).exit = LoopExit.extractError ∧
    (receiveLoop (fun _ => some { JsonRPC := "2.0", Id := 1, Result := [], Error := none })
      (NewSSETransport "http://localhost:8777" []) ()
      [Step.read "event: message\ndata: {}\n\n" none,
       Step.read "" (some ReadError.EOF)]).events = [] ∧
    (receiveLoop (fun _ => some { JsonRPC := "2.0", Id := 1, Result := [], Error := none })
      (NewSSETransport "http://localhost:8777" []) ()
      [Step.read "event: message\ndata: {}\n\n" none,
       Step.read "" (some ReadError.EOF)]).exit = LoopExit.nilCallback :=
  ⟨rfl, rfl, rfl, rfl, rfl, rfl, rfl⟩

/-! ## The correlation tables -/

theorem getElem?_snoc (l : List Wait) (x : Wait) : (l ++ [x])[l.length]? = some x := by
  simp

theorem setPC_snoc (l : List Wait) (id : Nat) (pc0 pc : WaitPC) :
    setPC (l ++ [{ messageID := id, pc := pc0 }]) l.length pc
      = l ++ [{ messageID := id, pc := pc }] := by
  simp [setPC]

theorem uint32_cast (i : Nat) (hi : i < 4294967296) : uint32 (i : Int) = i := by
  unfold uint32
  have h : ((i : Int) % 4294967296) = (i : Int) := by
    apply Int.emod_eq_of_lt
    · exact Int.ofNat_nonneg i
    · exact_mod_cast hi
  rw [h]
  simp

theorem OnMessage_buffer (w : World) (r : Response) (hp : w.panicked = false)
    (hl : w.c.messageIdLedger (uint32 r.Id) = none) :
    OnMessage w r =
      { w with c := { w.c with
          pendingMessages := Function.update w.c.pendingMessages (uint32 r.Id) (some r) } } := by
  simp [OnMessage, hp, hl]

theorem waitForResponse_hit (w : World) (i : Nat) (r : Response) (hp : w.panicked = false)
    (hr : w.c.pendingMessages i = some r) :
    waitForResponse w i =
      ({ w with
          c := { w.c with pendingMessages := Function.update w.c.pendingMessages i none },
          waits := w.waits ++ [{ messageID := i, pc := WaitPC.returned r }] }, some r) := by
  simp [waitForResponse, waitStart, waitResume, World.result, hp, hr, setPC]

theorem waitForResponse_miss (w : World) (i : Nat) (hp : w.panicked = false)
    (hr : w.c.pendingMessages i = none) :
    waitForResponse w i =
      ({ w with
          c := { w.c with
            messageIdLedger := Function.update w.c.messageIdLedger i (some w.waits.length) },
          waits := w.waits ++ [{ messageID := i, pc := WaitPC.registered }] }, none) := by
  simp [waitForResponse, waitStart, waitResume, World.result, hp, hr, setPC]

/-- C1: in a state with no waiter registered for id `i`, after `OnMessage(r)` with
`r.Id = i` a call `waitForResponse(i)` returns `r` without blocking and leaves
no entry for `i` in the pending table; a further `waitForResponse(i)` returns
nothing: it registers its own fresh channel for `i` and blocks on it.  Nothing
is assumed on where the id comes from. -/
theorem dispatch_before_wait (w : World) (i : Nat) (r : Response)
    (hp : w.panicked = false) (hi : i < 4294967296) (hid : r.Id = (i : Int))
    (hl : w.c.messageIdLedger i = none) :
    (waitForResponse (OnMessage w r) i).2 = some r ∧
    (waitForResponse (OnMessage w r) i).1.c.pendingMessages i = none ∧
    (waitForResponse (waitForResponse (OnMessage w r) i).1 i).2 = none ∧
    (waitForResponse (waitForResponse (OnMessage w r) i).1 i).1.c.messageIdLedger i
      = some (w.waits.length + 1) ∧
    (waitForResponse (waitForResponse (OnMessage w r) i).1 i).1.blocked (w.waits.length + 1)
      = true := by
  have hu : uint32 r.Id = i := by rw [hid]; exact uint32_cast i hi
  have hl2 : w.c.messageIdLedger (uint32 r.Id) = none := by rw [hu]; exact hl
  have e1 := OnMessage_buffer w r hp hl2
  rw [hu] at e1
  have p1 : (OnMessage w r).panicked = false := by rw [e1]; exact hp
  have q1 : (OnMessage w r).c.pendingMessages i = some r := by rw [e1]; simp
  have l1 : (OnMessage w r).waits = w.waits := by rw [e1]
  have m1 : (OnMessage w r).c.messageIdLedger = w.c.messageIdLedger := by rw [e1]
  have e2 := waitForResponse_hit (OnMessage w r) i r p1 q1
  have p2 : (waitForResponse (OnMessage w r) i).1.panicked = false := by rw [e2]; exact p1
  have q2 : (waitForResponse (OnMessage w r) i).1.c.pendingMessages i = none := by
    rw [e2]; simp
  have l2 : (waitForResponse (OnMessage w r) i).1.waits.length = w.waits.length + 1 := by
    rw [e2]; simp [l1]
  have e3 := waitForResponse_miss (waitForResponse (OnMessage w r) i).1 i p2 q2
  refine ⟨by rw [e2], q2, by rw [e3], ?_, ?_⟩
  · rw [e3]; simp [l2]
  · rw [e3]
    simp only [World.blocked, ← l2, getElem?_snoc]

/-- Witness of C1: a fresh client, the id 7 that no call has asked for. -/
theorem dispatch_before_wait_witness :
    (waitForResponse (OnMessage (World.init (NewClient "spark" "1.0.0"))
      { JsonRPC := "2.0", Id := 7, Result := [], Error := none }) 7).2
      = some { JsonRPC := "2.0", Id := 7, Result := [], Error := none } :=
  (dispatch_before_wait (World.init (NewClient "spark" "1.0.0")) 7
    { JsonRPC := "2.0", Id := 7, Result := [], Error := none } rfl (by decide) rfl rfl).1

/-- C2 on the code: a caller waits for id 1 and blocks; `OnMessage` hands it the
response and leaves the pending table alone, but the ledger keeps the entry for
id 1, which now names a closed channel; a second response with id 1 is sent on
that closed channel and the program panics. -/
theorem OnMessage_keeps_waiter_entry :
    ((waitForResponse (World.init (NewClient "spark" "1.0.0")) 1).1.blocked 0 = true) ∧
    ((OnMessage (waitForResponse (World.init (NewClient "spark" "1.0.0")) 1).1
        { JsonRPC := "2.0", Id := 1, Result := [], Error := none }).result 0
      = some { JsonRPC := "2.0", Id := 1, Result := [], Error := none }) ∧
    ((OnMessage (waitForResponse (World.init (NewClient "spark" "1.0.0")) 1).1
        { JsonRPC := "2.0", Id := 1, Result := [], Error := none }).c.pendingMessages 1
      = none) ∧
    ((OnMessage (waitForResponse (World.init (NewClient "spark" "1.0.0")) 1).1
        { JsonRPC := "2.0", Id := 1, Result := [], Error := none }).c.messageIdLedger 1
      = some 0) ∧
    ((OnMessage (OnMessage (waitForResponse (World.init (NewClient "spark" "1.0.0")) 1).1
        { JsonRPC := "2.0", Id := 1, Result := [], Error := none })
        { JsonRPC := "2.0", Id := 1, Result := [("again", JValue.null)], Error := none }).panicked
      = true) :=
  ⟨rfl, rfl, rfl, rfl, rfl⟩

/-- C10 on the code: a caller checks the pending table for id 1 and finds
nothing; before it registers, `OnMessage` finds no waiter and buffers the
response; the caller then registers.  Id 1 now has both a waiter and a buffered
response, and the waiter blocks although its response has arrived. -/
theorem both_tables_after_race :
    ((World.init (NewClient "spark" "1.0.0")).run
      [Action.wait 1,
       Action.dispatch { JsonRPC := "2.0", Id := 1, Result := [], Error := none },
       Action.resume 0]).both 1 = true ∧
    ((World.init (NewClient "spark" "1.0.0")).run
      [Action.wait 1,
       Action.dispatch { JsonRPC := "2.0", Id := 1, Result := [], Error := none },
       Action.resume 0]).blocked 0 = true ∧
    ((World.init (NewClient "spark" "1.0.0")).run
      [Action.wait 1,
       Action.dispatch { JsonRPC := "2.0", Id := 1, Result := [], Error := none },
       Action.resume 0]).panicked = false :=
  ⟨rfl, rfl, rfl⟩

/-! ## Request ids -/

theorem issue_counter (c : Client) (call : Call) :
    (c.issue call).1.Counter = (c.Counter + 1) % 4294967296 := by
  cases call with
  | Connect t =>
    simp only [Client.issue, Client.ConnectSend, Client.CounterAdd]
    cases t.Start with
    | some err => rfl
    | none =>
      simp only
      split <;> rfl
  | ListTools =>
    simp only [Client.issue, Client.ListToolsSend, Client.CounterAdd]
    cases c.transport with
    | none => rfl
    | some t =>
      simp only
      split <;> rfl
  | CallTool n a =>
    simp only [Client.issue, Client.CallToolSend, Client.CounterAdd]
    cases c.transport with
    | none => rfl
    | some t =>
      simp only
      split <;> rfl

theorem issue_request (c : Client) (call : Call) (req : Request)
    (h : (c.issue call).2.request = some req) :
    req.Id = (((c.Counter + 1) % 4294967296 : Nat) : Int) := by
  cases call with
  | Connect t =>
    simp only [Client.issue, Client.ConnectSend, Client.CounterAdd] at h
    cases hs : t.Start with
    | some err => simp [hs, Issue.request] at h
    | none =>
      simp only [hs] at h
      split at h <;> simp only [Issue.request, Option.some.injEq] at h <;> rw [← h]
  | ListTools =>
    simp only [Client.issue, Client.ListToolsSend, Client.CounterAdd] at h
    cases ht : c.transport with
    | none => simp [ht, Issue.request] at h
    | some t =>
      simp only [ht] at h
      split at h <;> simp only [Issue.request, Option.some.injEq] at h <;> rw [← h]
  | CallTool n a =>
    simp only [Client.issue, Client.CallToolSend, Client.CounterAdd] at h
    cases ht : c.transport with
    | none => simp [ht, Issue.request] at h
    | some t =>
      simp only [ht] at h
      split at h <;> simp only [Issue.request, Option.some.injEq] at h <;> rw [← h]

theorem requestIds_cons_some (i : Issue) (is : List Issue) (req : Request)
    (h : i.request = some req) : requestIds (i :: is) = req.Id :: requestIds is := by
  simp [requestIds, List.filterMap_cons, h]

theorem requestIds_cons_none (i : Issue) (is : List Issue)
    (h : i.request = none) : requestIds (i :: is) = requestIds is := by
  simp [requestIds, List.filterMap_cons, h]

theorem issueAll_cons (c : Client) (call : Call) (rest : List Call) :
    c.issueAll (call :: rest) = [Issue.panicked] ∧ (c.issue call).2.request = none ∨
    c.issueAll (call :: rest) = (c.issue call).2 :: (c.issue call).1.issueAll rest := by
  rcases hci : c.issue call with ⟨c1, i⟩
  cases i with
  | panicked => left; simp [Client.issueAll, hci, Issue.request]
  | sent id req => right; simp [Client.issueAll, hci]
  | failed req err => right; simp [Client.issueAll, hci]

theorem requestIds_issueAll_aux (calls : List Call) :
    ∀ c : Client, c.Counter + calls.length < 4294967296 →
      List.Pairwise (fun a b : Int => a < b) (requestIds (c.issueAll calls)) ∧
      ∀ x ∈ requestIds (c.issueAll calls),
        (c.Counter : Int) < x ∧ x ≤ (c.Counter : Int) + calls.length := by
  induction calls with
  | nil => intro c _; simp [Client.issueAll, requestIds]
  | cons call rest ih =>
    intro c hlen
    simp only [List.length_cons] at hlen
    have hmod : (c.Counter + 1) % 4294967296 = c.Counter + 1 := Nat.mod_eq_of_lt (by omega)
    have hc := issue_counter c call
    rw [hmod] at hc
    have hih := ih (c.issue call).1 (by rw [hc]; omega)
    rw [hc] at hih
    obtain ⟨hpw, hbd⟩ := hih
    have hbd2 : ∀ x ∈ requestIds ((c.issue call).1.issueAll rest),
        (c.Counter : Int) < x ∧ x ≤ (c.Counter : Int) + ((call :: rest).length : Nat) := by
      intro x hx
      have := hbd x hx
      simp only [List.length_cons]
      push_cast at this ⊢
      omega
    rcases issueAll_cons c call rest with ⟨h1, _⟩ | h1
    · rw [h1]
      simp [requestIds, Issue.request]
    · rw [h1]
      cases hreq : (c.issue call).2.request with
      | none =>
        rw [requestIds_cons_none _ _ hreq]
        exact ⟨hpw, hbd2⟩
      | some req =>
        rw [requestIds_cons_some _ _ req hreq]
        have hid := issue_request c call req hreq
        rw [hmod] at hid
        refine ⟨List.Pairwise.cons ?_ hpw, ?_⟩
        · intro x hx
          have := hbd x hx
          rw [hid]
          push_cast at this ⊢
          omega
        · intro x hx
          rcases List.mem_cons.mp hx with hx | hx
          · rw [hx, hid]
            simp only [List.length_cons]
            push_cast
            omega
          · exact hbd2 x hx

theorem issueAll_replicate_listTools (t : Transport) (hs : ∀ r, t.Send r = none) (n : Nat) :
    ∀ (c : Client) (k : Nat), c.transport = some t → k < n →
      (((c.Counter + k + 1) % 4294967296 : Nat) : Int)
        ∈ requestIds (c.issueAll (List.replicate n Call.ListTools)) := by
  induction n with
  | zero => intro c k _ hk; omega
  | succ n ih =>
    intro c k ht hk
    have hi : c.issue Call.ListTools =
        ({ c with Counter := (c.Counter + 1) % 4294967296 },
          Issue.sent ((c.Counter + 1) % 4294967296)
            { JsonRPC := "2.0", Id := (((c.Counter + 1) % 4294967296 : Nat) : Int),
              Method := "tools/list", Params := [] }) := by
      simp [Client.issue, Client.ListToolsSend, Client.CounterAdd, ht, hs]
    have hall : c.issueAll (List.replicate (n + 1) Call.ListTools) =
        (c.issue Call.ListTools).2 ::
          (c.issue Call.ListTools).1.issueAll (List.replicate n Call.ListTools) := by
      rw [List.replicate_succ]
      rcases issueAll_cons c Call.ListTools (List.replicate n Call.ListTools) with ⟨_, h2⟩ | h2
      · rw [hi] at h2; simp [Issue.request] at h2
      · exact h2
    rw [hall, requestIds_cons_some _ _ _ (by rw [hi]; rfl), hi]
    simp only
    cases k with
    | zero => simp
    | succ k =>
      apply List.mem_cons_of_mem
      have := ih { c with Counter := (c.Counter + 1) % 4294967296 } k ht (by omega)
      simp only at this
      have e : ((c.Counter + 1) % 4294967296 + k + 1) % 4294967296
          = (c.Counter + (k + 1) + 1) % 4294967296 := by omega
      rw [e] at this
      exact this

theorem connect_then (rest : List Call) (x : Int)
    (h : x ∈ requestIds (((NewClient "spark" "1.0.0").issue
      (Call.Connect { Start := none, Send := fun _ => none })).1.issueAll rest)) :
    x ∈ requestIds ((NewClient "spark" "1.0.0").issueAll
      (Call.Connect { Start := none, Send := fun _ => none } :: rest)) := by
  rcases issueAll_cons (NewClient "spark" "1.0.0")
    (Call.Connect { Start := none, Send := fun _ => none }) rest with ⟨_, h2⟩ | h2
  · exact absurd h2 (by simp [Client.issue, Client.ConnectSend, Client.CounterAdd,
      Issue.request])
  · rw [h2]
    cases hreq : (((NewClient "spark" "1.0.0").issue
      (Call.Connect { Start := none, Send := fun _ => none })).2.request) with
    | none => rw [requestIds_cons_none _ _ hreq]; exact h
    | some req => rw [requestIds_cons_some _ _ req hreq]; exact List.mem_cons_of_mem _ h

/-- C3 (amended): for a client made by `NewClient` and every sequence of fewer
than 2^32 calls of `Connect`, `ListTools` and `CallTool`, the ids on the
requests handed to the transport are above zero, strictly increasing and
without repetition, and the request of the first call, when that call hands one
over, has the id 1.  `Connect` with a transport that starts, then `ListTools`,
then `CallTool` put the ids 1, 2, 3 on their requests. -/
theorem requestIds_increasing (name version : String) (calls : List Call)
    (h : calls.length < 4294967296) :
    List.Pairwise (fun a b : Int => a < b)
      (requestIds ((NewClient name version).issueAll calls)) ∧
    (∀ x ∈ requestIds ((NewClient name version).issueAll calls), 0 < x) ∧
    (requestIds ((NewClient name version).issueAll calls)).Nodup ∧
    (∀ (call : Call) (rest : List Call) (req : Request), calls = call :: rest →
      ((NewClient name version).issue call).2.request = some req → req.Id = 1) ∧
    (∀ (t : Transport) (toolName : String) (arguments : List (String × JValue)),
      t.Start = none →
      requestIds ((NewClient name version).issueAll
        [Call.Connect t, Call.ListTools, Call.CallTool toolName arguments]) = [1, 2, 3]) := by
  have haux := requestIds_issueAll_aux calls (NewClient name version)
    (by simpa [NewClient] using h)
  refine ⟨haux.1, ?_, ?_, ?_, ?_⟩
  · intro x hx
    have := (haux.2 x hx).1
    simpa [NewClient] using this
  · exact haux.1.imp (fun hab => ne_of_lt hab)
  · intro call rest req _ hreq
    have := issue_request (NewClient name version) call req hreq
    simpa [NewClient] using this
  · intro t toolName arguments ht
    simp only [Client.issueAll, Client.issue, Client.ConnectSend, Client.ListToolsSend,
      Client.CallToolSend, Client.CounterAdd, NewClient, ht]
    cases h1 : t.Send _ <;> simp only [] <;> cases h2 : t.Send _ <;> simp only [] <;>
      cases h3 : t.Send _ <;> simp [requestIds, Issue.request]

/-- Witness of C3 (amended): the calls of the example program. -/
theorem requestIds_increasing_witness :
    requestIds ((NewClient "spark" "1.0.0").issueAll
      [Call.Connect { Start := none, Send := fun _ => none }, Call.ListTools,
       Call.CallTool "query" [("query", JValue.str "SELECT * FROM employees")]]) = [1, 2, 3] :=
  (requestIds_increasing "spark" "1.0.0"
    [Call.Connect { Start := none, Send := fun _ => none }, Call.ListTools,
     Call.CallTool "query" [("query", JValue.str "SELECT * FROM employees")]]
    (by decide)).2.2.2.2 { Start := none, Send := fun _ => none } "query"
      [("query", JValue.str "SELECT * FROM employees")] rfl

/-- C3 as stated fails for long sequences: the counter is a `uint32`, so the
2^32-th call of a client puts the id 0 on its request.  And when the first call
is a `Connect` whose transport does not start, no request carries the id 1. -/
theorem requestIds_wrap_counterexample :
    (0 : Int) ∈ requestIds ((NewClient "spark" "1.0.0").issueAll
      (Call.Connect { Start := none, Send := fun _ => none }
        :: List.replicate 4294967295 Call.ListTools)) ∧
    requestIds ((NewClient "spark" "1.0.0").issueAll
      [Call.Connect { Start := some "connection refused", Send := fun _ => none },
       Call.ListTools]) = [2] := by
  refine ⟨?_, rfl⟩
  have hmem := issueAll_replicate_listTools { Start := none, Send := fun _ => none }
    (fun _ => rfl) 4294967295
    ((NewClient "spark" "1.0.0").issue
      (Call.Connect { Start := none, Send := fun _ => none })).1 4294967294 rfl (by norm_num)
  have hc : ((NewClient "spark" "1.0.0").issue
      (Call.Connect { Start := none, Send := fun _ => none })).1.Counter = 1 := rfl
  have hz : (((1 + 4294967294 + 1) % 4294967296 : Nat) : Int) = 0 := by norm_num
  rw [hc, hz] at hmem
  exact connect_then (List.replicate 4294967295 Call.ListTools) 0 hmem

/-! ## Decoding a response -/

/-- C5 (amended): for every response whose error field is present, with code
`c` and message `m`, the `ListTools` or `CallTool` call that gets this response
returns no result and an error whose text is `"error: "` followed by `m`,
whatever the result field holds.  The code `c` is not part of what is
returned. -/
theorem error_response_fails (r : Response) (c : Int) (m : String)
    (h : r.Error = some { Code := c, Message := m }) :
    CallToolRecv r = Outcome.error ("error: " ++ m) ∧
    ListToolsRecv r = Outcome.error ("error: " ++ m) := by
  simp [CallToolRecv, ListToolsRecv, h]

/-- Witness of C5 (amended): the response of the example, with a result field
that would decode. -/
theorem error_response_fails_witness :
    CallToolRecv
        { JsonRPC := "2.0", Id := 4,
          Result := [("content", JValue.arr []), ("tools", JValue.arr [])],
          Error := some { Code := -32601, Message := "method not found" } }
      = Outcome.error ("error: " ++ "method not found") ∧
    ListToolsRecv
        { JsonRPC := "2.0", Id := 4,
          Result := [("content", JValue.arr []), ("tools", JValue.arr [])],
          Error := some { Code := -32601, Message := "method not found" } }
      = Outcome.error ("error: " ++ "method not found") :=
  error_response_fails _ (-32601) "method not found" rfl

/-- C5 as stated fails: two responses that differ in the error code only give
the same failure, so the failure does not carry the code; no function recovers
the code from what `CallTool` or `ListTools` return. -/
theorem error_code_dropped_counterexample :
    CallToolRecv
        { JsonRPC := "2.0", Id := 4, Result := [],
          Error := some { Code := -32601, Message := "method not found" } }
      = CallToolRecv
        { JsonRPC := "2.0", Id := 4, Result := [],
          Error := some { Code := -32000, Message := "method not found" } } ∧
    ListToolsRecv
        { JsonRPC := "2.0", Id := 4, Result := [],
          Error := some { Code := -32601, Message := "method not found" } }
      = ListToolsRecv
        { JsonRPC := "2.0", Id := 4, Result := [],
          Error := some { Code := -32000, Message := "method not found" } } ∧
    ¬ ∃ code : Outcome (List ToolCallResponseResult) → Int,
      ∀ (r : Response) (c : Int) (m : String), r.Error = some { Code := c, Message := m } →
        code (CallToolRecv r) = c := by
  refine ⟨rfl, rfl, ?_⟩
  rintro ⟨code, hcode⟩
  have h1 := hcode ⟨"2.0", 4, [], some ⟨-32601, "method not found"⟩⟩ (-32601)
    "method not found" rfl
  have h2 := hcode ⟨"2.0", 4, [], some ⟨-32000, "method not found"⟩⟩ (-32000)
    "method not found" rfl
  have h3 : CallToolRecv ⟨"2.0", 4, [], some ⟨-32601, "method not found"⟩⟩
      = CallToolRecv ⟨"2.0", 4, [], some ⟨-32000, "method not found"⟩⟩ := rfl
  rw [h3, h2] at h1
  exact absurd h1 (by decide)

theorem callToolItem_ok (ct : JValue) (h : contentItemOk ct = true) :
    callToolItem ct = some (recordOf ct) := by
  cases ct with
  | obj fields =>
    simp only [contentItemOk, Bool.and_eq_true] at h
    obtain ⟨⟨⟨h1, h2⟩, h3⟩, h4⟩ := h
    simp only [callToolItem, assertMap, recordOf]
    cases ht : index fields "type" <;> rw [ht] at h1 <;> simp [isString] at h1
    cases hx : index fields "text" <;> rw [hx] at h2 <;> simp [optionalString] at h2 <;>
    cases hd : index fields "data" <;> rw [hd] at h3 <;> simp [optionalString] at h3 <;>
    cases hm : index fields "mimeType" <;> rw [hm] at h4 <;> simp [optionalString] at h4 <;>
    simp [assertString, convertInterfaceToStrPtr, stringOf]
  | null => simp [contentItemOk] at h
  | bool b => simp [contentItemOk] at h
  | num n => simp [contentItemOk] at h
  | str s => simp [contentItemOk] at h
  | arr items => simp [contentItemOk] at h

theorem callToolItem_bad (ct : JValue) (h : contentItemOk ct = false) :
    callToolItem ct = none := by
  cases ct with
  | obj fields =>
    simp only [callToolItem, assertMap]
    simp only [contentItemOk] at h
    cases ht : index fields "type" <;> simp only [assertString]
    cases hx : index fields "text" <;> simp only [convertInterfaceToStrPtr, assertString] <;>
    cases hd : index fields "data" <;> simp only [convertInterfaceToStrPtr, assertString] <;>
    cases hm : index fields "mimeType" <;> simp only [convertInterfaceToStrPtr, assertString] <;>
    simp [ht, hx, hd, hm, isString, optionalString] at h
  | null => rfl
  | bool b => rfl
  | num n => rfl
  | str s => rfl
  | arr items => rfl

theorem listToolsItem_bad (v : JValue) (h : toolItemOk v = false) :
    listToolsItem v = none := by
  cases v with
  | obj fields =>
    simp only [listToolsItem, assertMap]
    simp only [toolItemOk] at h
    cases hn : index fields "name" <;> simp only [assertString]
    cases hd : index fields "description" <;> simp only [assertString]
    cases hi : index fields "inputSchema" <;> simp only [assertMap]
    simp [hn, hd, hi, isString, isObject] at h
  | null => rfl
  | bool b => rfl
  | num n => rfl
  | str s => rfl
  | arr items => rfl

theorem callToolLoop_ok (items : List JValue) :
    ∀ acc : List ToolCallResponseResult, items.all contentItemOk = true →
      callToolLoop items acc = Outcome.ok (acc ++ items.map recordOf) := by
  induction items with
  | nil => intro acc _; simp [callToolLoop]
  | cons ct rest ih =>
    intro acc h
    simp only [List.all_cons, Bool.and_eq_true] at h
    rw [callToolLoop, callToolItem_ok ct h.1]
    simp only
    rw [ih _ h.2]
    simp

theorem callToolLoop_bad (items : List JValue) :
    ∀ acc : List ToolCallResponseResult, items.all contentItemOk = false →
      callToolLoop items acc = Outcome.panic := by
  induction items with
  | nil => intro acc h; simp at h
  | cons ct rest ih =>
    intro acc h
    rw [callToolLoop]
    cases hc : contentItemOk ct with
    | false => rw [callToolItem_bad ct hc]
    | true =>
      rw [callToolItem_ok ct hc]
      simp only
      apply ih
      simpa [hc] using h

theorem listToolsLoop_bad (items : List JValue) :
    ∀ acc : List Tool, items.all toolItemOk = false →
      listToolsLoop items acc = Outcome.panic := by
  induction items with
  | nil => intro acc h; simp at h
  | cons v rest ih =>
    intro acc h
    rw [listToolsLoop]
    cases hi : listToolsItem v with
    | none => rfl
    | some tool =>
      simp only
      apply ih
      cases hc : toolItemOk v with
      | false => rw [listToolsItem_bad v hc] at hi; exact absurd hi (by simp)
      | true => simpa [hc] using h

/-- C6 (amended): for every error-free response whose result lacks an expected
field or has it in the wrong shape (`result.tools` or `result.content` missing
or not an array; an element that is not an object; `name`, `description` or
`type` missing or not a string; `inputSchema` missing or not an object; `text`,
`data` or `mimeType` present but not a string), `ListTools` and `CallTool`
panic on a failed type assertion: they return neither records nor an error. -/
theorem malformed_result_panics (r : Response) (he : r.Error = none) :
    (toolsOk r.Result = false → ListToolsRecv r = Outcome.panic) ∧
    (contentOk r.Result = false → CallToolRecv r = Outcome.panic) := by
  constructor
  · intro h
    simp only [ListToolsRecv, he]
    simp only [toolsOk] at h
    cases hx : index r.Result "tools" <;> simp only [assertSlice]
    rw [hx] at h
    exact listToolsLoop_bad _ [] h
  · intro h
    simp only [CallToolRecv, he]
    simp only [contentOk] at h
    cases hx : index r.Result "content" <;> simp only [assertSlice]
    rw [hx] at h
    exact callToolLoop_bad _ [] h

/-- Witness of C6 (amended): a tool without `inputSchema`, and a content element
whose `text` is a number. -/
theorem malformed_result_panics_witness :
    ListToolsRecv
        { JsonRPC := "2.0", Id := 2,
          Result := [("tools", JValue.arr [JValue.obj [("name", JValue.str "query"),
            ("description", JValue.str "run a query")]]),
            ("content", JValue.arr [JValue.obj [("type", JValue.str "text"),
            ("text", JValue.num 1)]])],
          Error := none }
      = Outcome.panic ∧
    CallToolRecv
        { JsonRPC := "2.0", Id := 2,
          Result := [("tools", JValue.arr [JValue.obj [("name", JValue.str "query"),
            ("description", JValue.str "run a query")]]),
            ("content", JValue.arr [JValue.obj [("type", JValue.str "text"),
            ("text", JValue.num 1)]])],
          Error := none }
      = Outcome.panic :=
  ⟨(malformed_result_panics _ rfl).1 rfl, (malformed_result_panics _ rfl).2 rfl⟩

/-- C6 as stated fails: on the error-free response `{"id":2,"result":{}}`, with
neither `tools` nor `content`, `ListTools` and `CallTool` panic; they do not
return an error of any kind. -/
theorem missing_field_counterexample :
    ListToolsRecv { JsonRPC := "2.0", Id := 2, Result := [], Error := none } = Outcome.panic ∧
    CallToolRecv { JsonRPC := "2.0", Id := 2, Result := [], Error := none } = Outcome.panic ∧
    (¬ ∃ text, ListToolsRecv { JsonRPC := "2.0", Id := 2, Result := [], Error := none }
      = Outcome.error text) ∧
    (¬ ∃ text, CallToolRecv { JsonRPC := "2.0", Id := 2, Result := [], Error := none }
      = Outcome.error text) := by
  refine ⟨rfl, rfl, ?_, ?_⟩
  · rintro ⟨text, h⟩
    have h2 : (Outcome.panic : Outcome (List Tool)) = Outcome.error text :=
      Eq.trans (Eq.symm rfl) h
    cases h2
  · rintro ⟨text, h⟩
    have h2 : (Outcome.panic : Outcome (List ToolCallResponseResult)) = Outcome.error text :=
      Eq.trans (Eq.symm rfl) h
    cases h2

/-- C7: for every error-free response whose `result.content` is an array of
objects, each with a string `type` and with `text`, `data` and `mimeType` each
absent, null or a string, `CallTool` returns without error one record per
element, in the same order, with `Type` the element's type and `Text`, `Data`,
`MimeType` the element's string when there is one and nil otherwise. -/
theorem callTool_translates_content (r : Response) (he : r.Error = none)
    (hc : contentOk r.Result = true) :
    CallToolRecv r = Outcome.ok ((contentItems r.Result).map recordOf) := by
  simp only [CallToolRecv, he]
  simp only [contentOk] at hc
  simp only [contentItems]
  cases hx : index r.Result "content" <;> rw [hx] at hc <;> simp at hc
  simp only [assertSlice]
  rw [callToolLoop_ok _ [] (by simpa using hc)]
  simp

/-- Witness of C7: the content `[{"type":"text","text":"ok"}]` gives one record
with type `text`, text `ok`, and neither data nor MIME type. -/
theorem callTool_translates_content_witness :
    CallToolRecv
        { JsonRPC := "2.0", Id := 3,
          Result := [("content", JValue.arr [JValue.obj [("type", JValue.str "text"),
            ("text", JValue.str "ok")]])],
          Error := none }
      = Outcome.ok [{ Type_ := "text", Text := some "ok", Data := none, MimeType := none }] :=
  callTool_translates_content _ rfl rfl

end McpClient
